import Mathlib

/-!
Verification development for the pr-analysis repository: a shallow embedding
of its data model (models package), the learning processor (processor
package), the Gemini client post-processing (gemini package), the download
orchestrator (downloader package) and the query/filter/report component
(query package), together with theorems settling the specification claims.

Machine integers are modelled as `Int` (no field in this program is subject
to intended overflow). Go `time.Time` values are modelled by their RFC3339
wire string (GitHub timestamps are UTC), which is the form they take in the
JSON files; `time.Time` round-trips through that string in Go. Fallible
loads are modelled as `Option`. Logging is elided.
-/

set_option autoImplicit false

namespace PRAnalyzer

/-- Go time.Time, modelled by its RFC3339 wire representation. -/
structure GoTime where
  rfc3339 : String
  deriving Repr, DecidableEq

/-- Display format "2006-01-02 15:04:05" applied to a UTC RFC3339 time:
the date part, a space, and the clock part of the RFC3339 string. -/
def GoTime.format (t : GoTime) : String :=
  (t.rfc3339.take 10) ++ " " ++ ((t.rfc3339.drop 11).take 8)

/-- models.User. -/
structure User where
  login : String := ""
  id : Int := 0
  avatarUrl : String := ""
  htmlUrl : String := ""
  type : String := ""
  deriving Repr, DecidableEq

/-- models.Branch. -/
structure Branch where
  label : String := ""
  ref : String := ""
  sha : String := ""
  deriving Repr, DecidableEq

/-- models.PullRequest. Defaults are the Go zero values. -/
structure PullRequest where
  number : Int := 0
  title : String := ""
  state : String := ""
  body : String := ""
  createdAt : GoTime := ⟨""⟩
  updatedAt : GoTime := ⟨""⟩
  closedAt : Option GoTime := none
  mergedAt : Option GoTime := none
  user : User := {}
  base : Branch := {}
  head : Branch := {}
  url : String := ""
  htmlUrl : String := ""
  commentsUrl : String := ""
  reviewComments : Int := 0
  comments : Int := 0
  commits : Int := 0
  additions : Int := 0
  deletions : Int := 0
  changedFiles : Int := 0
  deriving Repr, DecidableEq

/-- models.Commit. -/
structure Commit where
  sha : String := ""
  author : User := {}
  committer : User := {}
  message : String := ""
  url : String := ""
  date : GoTime := ⟨""⟩
  deriving Repr, DecidableEq

/-- models.Comment. Nullable Go pointer fields are `Option`. -/
structure Comment where
  id : Int := 0
  body : String := ""
  user : User := {}
  createdAt : GoTime := ⟨""⟩
  updatedAt : GoTime := ⟨""⟩
  url : String := ""
  htmlUrl : String := ""
  type : String := ""
  path : String := ""
  position : Option Int := none
  line : Option Int := none
  startLine : Option Int := none
  originalPosition : Option Int := none
  originalStartLine : Option Int := none
  commitId : String := ""
  originalCommitId : String := ""
  diffHunk : String := ""
  inReplyToId : Option Int := none
  deriving Repr, DecidableEq

/-- models.Review. -/
structure Review where
  id : Int := 0
  user : User := {}
  body : String := ""
  state : String := ""
  htmlUrl : String := ""
  submittedAt : GoTime := ⟨""⟩
  commitId : String := ""
  deriving Repr, DecidableEq

/-- models.PRData. -/
structure PRData where
  pr : PullRequest := {}
  commits : List Commit := []
  comments : List Comment := []
  reviews : List Review := []
  deriving Repr, DecidableEq

/-- models.Metadata. The Go map AuthorStats is modelled by its canonical
(sorted-unique-key) association list, the form it takes on the JSON wire. -/
structure Metadata where
  lastUpdated : GoTime := ⟨""⟩
  totalPRs : Int := 0
  repository : String := ""
  owner : String := ""
  authorStats : List (String × Int) := []
  deriving Repr, DecidableEq

/-- gemini.Learning. -/
structure Learning where
  prNumber : Int := 0
  prTitle : String := ""
  learnings : List String := []
  topics : List String := []
  processedAt : String := ""
  deriving Repr, DecidableEq

/-- gemini.ProcessingStatus. -/
structure ProcessingStatus where
  totalPRs : Int := 0
  processedPRs : Int := 0
  lastPR : Int := 0
  updatedAt : String := ""
  deriving Repr, DecidableEq

/-!
Learning processor (processor package, Processor.ProcessAllPRs and helpers).

The on-disk state visible to the processor is modelled by `ProcStore`: the
loaded processing status (LoadProcessingStatus returns the zero status when
the file is absent) and the contents of the data/pulls directory, an
association list from directory name (the PR number) to the load results of
the four per-PR files, `none` meaning absent or malformed. The Gemini call
Client.ProcessPR is an external service: it is a parameter
`gen : PRData → Option (List String × List String)` giving, on success, the
learnings and topics of the Learning it returns (the client always sets the
Learning PR number and title from the PR record, see Client.ProcessPR);
`none` models a generation error, which the processor logs and skips.
-/

/-- Load results of the four files of one data/pulls/{n} directory. -/
structure PRFiles where
  pr : Option PullRequest := none
  commits : Option (List Commit) := none
  comments : Option (List Comment) := none
  reviews : Option (List Review) := none
  deriving Repr

/-- Store state as seen by Processor.ProcessAllPRs. -/
structure ProcStore where
  status : ProcessingStatus := {}
  pulls : List (Int × PRFiles) := []

/-- Result of one ProcessAllPRs run: the in-memory status at the end, the
Learning records persisted by the run, and the PR numbers for which the
Gemini service was invoked, in invocation order. -/
structure RunResult where
  status : ProcessingStatus
  savedLearnings : List Learning
  geminiCalls : List Int
  deriving Repr

/-- Processor.getAllPRNumbers followed by sort.Ints: the directory names
parsed as integers, sorted ascending. sort.Ints is modelled by a structural
comparison sort; directory names are distinct, so every ascending sort
yields the same list. -/
def getAllPRNumbersSorted (pulls : List (Int × PRFiles)) : List Int :=
  (pulls.map Prod.fst).insertionSort (fun a b => a ≤ b)

/-- Processor.loadPRData: pr.json is mandatory, the other three files
default to empty collections when they fail to load (with a warning). -/
def loadPRData (pulls : List (Int × PRFiles)) (prNumber : Int) : Option PRData :=
  match pulls.lookup prNumber with
  | none => none
  | some files =>
    match files.pr with
    | none => none
    | some pr =>
      some { pr := pr, commits := files.commits.getD [],
             comments := files.comments.getD [], reviews := files.reviews.getD [] }

/-- Processor.hasDiffHunk: true when some comment has a non-empty DiffHunk. -/
def hasDiffHunk (prData : PRData) : Bool :=
  prData.comments.any (fun c => c.diffHunk != "")

/-- Start index computation of ProcessAllPRs: when LastPR > 0, the loop sets
startIdx to the first index whose number exceeds LastPR and breaks; when no
number exceeds LastPR the variable keeps its initial value 0. -/
def startIdx (lastPR : Int) (prNumbers : List Int) : Nat :=
  if lastPR > 0 then
    (prNumbers.findIdx? (fun n => decide (lastPR < n))).getD 0
  else 0

/-- The PR numbers the main loop of ProcessAllPRs iterates over: the sorted
directory numbers from the start index onward. -/
def iteratedPRs (lastPR : Int) (pulls : List (Int × PRFiles)) : List Int :=
  let ns := getAllPRNumbersSorted pulls
  ns.drop (startIdx lastPR ns)

/-- One iteration of the ProcessAllPRs loop body for PR number `prNumber`:
load failure, absence of comments and reviews, or absence of a diff hunk
skip the PR before the Gemini call; a generation error skips after it; on
success the Learning is persisted and the status advanced. -/
def processOne (gen : PRData → Option (List String × List String)) (now : String)
    (pulls : List (Int × PRFiles)) (st : RunResult) (prNumber : Int) : RunResult :=
  match loadPRData pulls prNumber with
  | none => st
  | some prData =>
    if prData.comments.length = 0 ∧ prData.reviews.length = 0 then st
    else if hasDiffHunk prData = false then st
    else
      let st1 : RunResult := { st with geminiCalls := st.geminiCalls ++ [prNumber] }
      match gen prData with
      | none => st1
      | some lt =>
        let learning : Learning :=
          { prNumber := prData.pr.number, prTitle := prData.pr.title,
            learnings := lt.1, topics := lt.2, processedAt := now }
        { status := { st1.status with
              processedPRs := st1.status.processedPRs + 1,
              lastPR := prNumber, updatedAt := now },
          savedLearnings := st1.savedLearnings ++ [learning],
          geminiCalls := st1.geminiCalls }

/-- Processor.ProcessAllPRs: load the status, list and sort the stored PR
numbers, record the total, find the start index from the cursor, and fold
the loop body over the remaining numbers. -/
def ProcessAllPRs (gen : PRData → Option (List String × List String)) (now : String)
    (store : ProcStore) : RunResult :=
  let ns := getAllPRNumbersSorted store.pulls
  let status0 : ProcessingStatus := { store.status with totalPRs := Int.ofNat ns.length }
  (ns.drop (startIdx status0.lastPR ns)).foldl (processOne gen now store.pulls)
    { status := status0, savedLearnings := [], geminiCalls := [] }

/-- A review comment carrying a diff hunk, enough for a PR to qualify for
Gemini processing. -/
def demoComment : Comment :=
  { id := 11, body := "use the stdlib helper here",
    user := { login := "alice" }, type := "review",
    createdAt := ⟨"2024-01-02T03:04:05Z"⟩, diffHunk := "@@ -1 +1 @@" }

/-- Per-PR files of a PR that qualifies for Gemini processing. -/
def demoFiles (n : Int) : PRFiles :=
  { pr := some { number := n, title := "demo" },
    commits := some [], comments := some [demoComment], reviews := some [] }

/-- A generation service that always succeeds with one learning. -/
def demoGen : PRData → Option (List String × List String) :=
  fun _ => some (["prefer early returns"], ["style"])

/-- Store with the single downloaded PR #1, qualifying for processing, and
no prior status file. -/
def singlePRStore : ProcStore :=
  { status := {}, pulls := [(1, demoFiles 1)] }

/-- Well-formedness of the store written by the downloader: the pr.json
record stored under directory n, when it parses, carries PR number n. -/
def wellFormedPulls (pulls : List (Int × PRFiles)) : Bool :=
  pulls.all (fun e =>
    match e.2.pr with
    | none => true
    | some pr => pr.number == e.1)

/-- Condition of the skip policy, quoted from the claim: the PR has zero
comments and zero reviews, or none of its comments carries a non-empty
diff excerpt. -/
def SkipsGemini (files : PRFiles) : Prop :=
  (files.comments.getD [] = [] ∧ files.reviews.getD [] = []) ∨
    (∀ c ∈ files.comments.getD [], c.diffHunk = "")

lemma mem_of_lookup_eq_some {α β : Type} [BEq α] [LawfulBEq α]
    {l : List (α × β)} {k : α} {b : β} (h : l.lookup k = some b) : (k, b) ∈ l := by
  rcases List.lookup_eq_some_iff.1 h with ⟨l₁, l₂, rfl, -⟩
  simp

lemma loadPRData_eq_some {pulls : List (Int × PRFiles)} {n : Int} {prData : PRData}
    (h : loadPRData pulls n = some prData) :
    ∃ files, pulls.lookup n = some files ∧ files.pr = some prData.pr ∧
      prData.comments = files.comments.getD [] ∧ prData.reviews = files.reviews.getD [] := by
  unfold loadPRData at h
  split at h
  · exact absurd h (by simp)
  next files hl =>
    split at h
    · exact absurd h (by simp)
    next pr hpr =>
      injection h with h
      subst h
      exact ⟨files, hl, by simp [hpr], rfl, rfl⟩

lemma loadPRData_number {pulls : List (Int × PRFiles)} {n : Int} {prData : PRData}
    (hwf : wellFormedPulls pulls = true)
    (h : loadPRData pulls n = some prData) : prData.pr.number = n := by
  rcases loadPRData_eq_some h with ⟨files, hl, hpr, -, -⟩
  have hmem := mem_of_lookup_eq_some hl
  have := (List.all_eq_true.1 hwf) _ hmem
  rw [hpr] at this
  exact by simpa using this

/-- Invariant tracked through a run for claim C5: PR p has not been sent to
Gemini and no persisted Learning carries its number. -/
def UntouchedPR (p : Int) (st : RunResult) : Prop :=
  p ∉ st.geminiCalls ∧ ∀ l ∈ st.savedLearnings, l.prNumber ≠ p

lemma processOne_untouched {gen : PRData → Option (List String × List String)}
    {now : String} {pulls : List (Int × PRFiles)} {p : Int}
    (hwf : wellFormedPulls pulls = true)
    (hp : ∀ files, pulls.lookup p = some files → SkipsGemini files)
    {st : RunResult} (h : UntouchedPR p st) (n : Int) :
    UntouchedPR p (processOne gen now pulls st n) := by
  unfold processOne
  cases hload : loadPRData pulls n with
  | none => exact h
  | some prData =>
    by_cases hempty : prData.comments.length = 0 ∧ prData.reviews.length = 0
    · simp only [if_pos hempty]; exact h
    · simp only [if_neg hempty]
      by_cases hhd : hasDiffHunk prData = false
      · simp only [if_pos hhd]; exact h
      · simp only [if_neg hhd]
        have hnp : n ≠ p := by
          intro hnp; subst hnp
          rcases loadPRData_eq_some hload with ⟨files, hl, -, hc, hr⟩
          rcases hp files hl with ⟨h1, h2⟩ | hnone
          · exact hempty ⟨by simp [hc, h1], by simp [hr, h2]⟩
          · refine hhd ?_
            rw [hasDiffHunk, List.any_eq_false]
            intro c hcmem
            rw [hc] at hcmem
            simp [hnone c hcmem]
        have hnum : prData.pr.number = n := loadPRData_number hwf hload
        cases hgen : gen prData with
        | none =>
          refine ⟨?_, h.2⟩
          simp only [List.mem_append, List.mem_singleton]
          rintro (hmem | rfl)
          · exact h.1 hmem
          · exact hnp rfl
        | some lt =>
          refine ⟨?_, ?_⟩
          · simp only [List.mem_append, List.mem_singleton]
            rintro (hmem | rfl)
            · exact h.1 hmem
            · exact hnp rfl
          · intro l hl
            rcases List.mem_append.1 hl with hmem | hmem
            · exact h.2 l hmem
            · rcases List.mem_singleton.1 hmem with rfl
              simpa [hnum] using hnp

lemma foldl_processOne_untouched {gen : PRData → Option (List String × List String)}
    {now : String} {pulls : List (Int × PRFiles)} {p : Int}
    (hwf : wellFormedPulls pulls = true)
    (hp : ∀ files, pulls.lookup p = some files → SkipsGemini files)
    (ns : List Int) {st : RunResult} (h : UntouchedPR p st) :
    UntouchedPR p (ns.foldl (processOne gen now pulls) st) := by
  induction ns generalizing st with
  | nil => exact h
  | cons n ns ih => exact ih (processOne_untouched hwf hp h n)

/-- C1. The spec states resume idempotence: a second ProcessAllPRs run over
an unchanged store invokes the generation service for no PR and leaves the
cursor unchanged. The code violates it: after a first run over a store
whose highest-numbered PR was processed (here the single PR #1, cursor 1),
no stored number exceeds the cursor, the start-index loop never breaks,
startIdx stays 0, and the second run re-sends PR #1 to the service. This
theorem evaluates both runs: the second run invokes Gemini for PR #1. -/
theorem processAllPRs_second_run_reinvokes_gemini :
    (ProcessAllPRs demoGen "t1" singlePRStore).status.lastPR = 1 ∧
      (ProcessAllPRs demoGen "t2"
        { singlePRStore with
            status := (ProcessAllPRs demoGen "t1" singlePRStore).status }).geminiCalls = [1] :=
  ⟨rfl, rfl⟩

/-- C2. Resume correctness: with stored PRs {1, 2, 3, 5, 8} and cursor 3,
ProcessAllPRs iterates over exactly [5, 8] in ascending order, whatever the
per-PR file contents, never loading 1, 2 or 3; and with qualifying files
the generation service is invoked exactly for 5 then 8. -/
theorem processAllPRs_resumes_after_cursor :
    (∀ f1 f2 f3 f5 f8 : PRFiles,
      iteratedPRs 3 [(1, f1), (2, f2), (3, f3), (5, f5), (8, f8)] = [5, 8]) ∧
      (ProcessAllPRs demoGen "t"
        { status := { lastPR := 3 },
          pulls := [(1, demoFiles 1), (2, demoFiles 2), (3, demoFiles 3),
            (5, demoFiles 5), (8, demoFiles 8)] }).geminiCalls = [5, 8] :=
  ⟨fun _ _ _ _ _ => rfl, rfl⟩

/-- C5. Skip policy: a stored PR with zero comments and zero reviews, or
none of whose comments carries a non-empty diff hunk, is never sent to the
generation service by ProcessAllPRs, and no Learning record is persisted
for it (the store being well formed: each stored pr.json carries the number
of its directory). -/
theorem processAllPRs_skip_policy
    (gen : PRData → Option (List String × List String)) (now : String)
    (store : ProcStore) (p : Int)
    (hwf : wellFormedPulls store.pulls = true)
    (hp : ∀ files, store.pulls.lookup p = some files → SkipsGemini files) :
    p ∉ (ProcessAllPRs gen now store).geminiCalls ∧
      ∀ l ∈ (ProcessAllPRs gen now store).savedLearnings, l.prNumber ≠ p := by
  have h0 : UntouchedPR p
      { status := { store.status with
          totalPRs := Int.ofNat (getAllPRNumbersSorted store.pulls).length },
        savedLearnings := [], geminiCalls := [] } := by
    constructor <;> simp
  exact foldl_processOne_untouched hwf hp _ h0

/-- Files of a PR whose only comment has no diff hunk. -/
def noHunkFiles : PRFiles :=
  { pr := some { number := 4, title := "typo fix" },
    commits := some [],
    comments := some [{ id := 7, body := "thanks", user := { login := "bob" }, type := "issue" }],
    reviews := some [] }

/-- Witness for C5: in a concrete two-PR store, PR #4, whose single comment
has no diff hunk, is neither sent to Gemini nor given a Learning record. -/
theorem processAllPRs_skip_policy_witness :
    (4 : Int) ∉ (ProcessAllPRs demoGen "t"
        { status := {}, pulls := [(4, noHunkFiles), (5, demoFiles 5)] }).geminiCalls ∧
      ∀ l ∈ (ProcessAllPRs demoGen "t"
        { status := {}, pulls := [(4, noHunkFiles), (5, demoFiles 5)] }).savedLearnings,
        l.prNumber ≠ 4 := by
  refine processAllPRs_skip_policy demoGen "t" _ 4 (by decide) ?_
  intro files hl
  have hf : noHunkFiles = files := by
    simpa [List.lookup] using hl
  subst hf
  exact Or.inr (by decide)

/-!
JSON values, as produced by encoding/json for the entity types of this
program: objects, arrays, strings, integers, booleans and null.
-/

/-- JSON document tree. Every numeric field of this program is an integer. -/
inductive Json where
  | null
  | bool (b : Bool)
  | num (n : Int)
  | str (s : String)
  | arr (elems : List Json)
  | obj (fields : List (String × Json))
  deriving Repr

/-- Escape of one character inside a JSON string literal. -/
def escapeJsonChar (c : Char) : String :=
  if c = '"' then "\\\""
  else if c = '\\' then "\\\\"
  else if c = '\n' then "\\n"
  else if c = '\r' then "\\r"
  else if c = '\t' then "\\t"
  else String.singleton c

/-- JSON string literal. -/
def renderJsonString (s : String) : String :=
  "\"" ++ String.join (s.toList.map escapeJsonChar) ++ "\""

/-- Indentation of depth d at two spaces per level, the indent handed to
json.MarshalIndent by the query formatter. -/
def indentStr (d : Nat) : String :=
  String.mk (List.replicate (2 * d) ' ')

mutual

/-- Pretty printer following json.MarshalIndent with a two-space indent. -/
def renderJson : Nat → Json → String
  | _, .null => "null"
  | _, .bool true => "true"
  | _, .bool false => "false"
  | _, .num n => toString n
  | _, .str s => renderJsonString s
  | _, .arr [] => "[]"
  | d, .arr (x :: xs) => "[\n" ++ renderJsonItems (d + 1) (x :: xs) ++ "\n" ++ indentStr d ++ "]"
  | _, .obj [] => "\x7b\x7d"
  | d, .obj (f :: fs) =>
    "\x7b\n" ++ renderJsonFields (d + 1) (f :: fs) ++ "\n" ++ indentStr d ++ "\x7d"

/-- Array elements, one per line, comma separated. -/
def renderJsonItems : Nat → List Json → String
  | _, [] => ""
  | d, [x] => indentStr d ++ renderJson d x
  | d, x :: y :: xs =>
    indentStr d ++ renderJson d x ++ ",\n" ++ renderJsonItems d (y :: xs)

/-- Object fields, one per line, comma separated. -/
def renderJsonFields : Nat → List (String × Json) → String
  | _, [] => ""
  | d, [(k, v)] => indentStr d ++ renderJsonString k ++ ": " ++ renderJson d v
  | d, (k, v) :: f :: fs =>
    indentStr d ++ renderJsonString k ++ ": " ++ renderJson d v ++ ",\n" ++
      renderJsonFields d (f :: fs)

end

/-!
Query component (query package, Query.FilterByAuthors and helpers).

The store visible to the query is the metadata load result and the
data/pulls directory, reusing `PRFiles`. The requested author set is the
parsed comma-separated list (membership in the Go set map is list
membership). Go map iteration order, which is unspecified, is modelled by
first-encounter order in formatStdout; no claim depends on it.
-/

/-- query.CommentResult: one normalized result row. -/
structure CommentResult where
  prNumber : Int
  prTitle : String
  author : String
  commentType : String
  body : String
  createdAt : String
  url : String
  path : String
  line : Option Int
  deriving Repr, DecidableEq

/-- Store state as seen by Query.FilterByAuthors. -/
structure QueryStore where
  metadata : Option Metadata := none
  pulls : List (Int × PRFiles) := []

/-- Row built from a comment whose author is selected. -/
def commentRow (pr : PullRequest) (c : Comment) : CommentResult :=
  { prNumber := pr.number, prTitle := pr.title, author := c.user.login,
    commentType := c.type, body := c.body, createdAt := c.createdAt.format,
    url := c.htmlUrl, path := c.path, line := c.line }

/-- Row built from a review whose author is selected and body is non-empty. -/
def reviewRow (pr : PullRequest) (r : Review) : CommentResult :=
  { prNumber := pr.number, prTitle := pr.title, author := r.user.login,
    commentType := "review", body := r.body, createdAt := r.submittedAt.format,
    url := r.htmlUrl, path := "", line := none }

/-- Body of the FilterByAuthors loop over one pulls directory entry: a pr.json
load failure skips the entry; a comments.json load failure skips the entry
before any row is produced; a reviews.json load failure keeps the comment
rows already appended and skips only the review rows. -/
def queryStep (authors : List String) (results : List CommentResult)
    (e : Int × PRFiles) : List CommentResult :=
  match e.2.pr with
  | none => results
  | some pr =>
    match e.2.comments with
    | none => results
    | some comments =>
      let results := results ++
        (comments.filter (fun c => authors.contains c.user.login)).map (commentRow pr)
      match e.2.reviews with
      | none => results
      | some reviews =>
        results ++ (reviews.filter
          (fun r => authors.contains r.user.login && r.body != "")).map (reviewRow pr)

/-- The rows FilterByAuthors collects before sorting. -/
def collectResults (authors : List String) (pulls : List (Int × PRFiles)) :
    List CommentResult :=
  pulls.foldl (queryStep authors) []

/-- Lexicographic character-list order. -/
def goCharsLt : List Char → List Char → Bool
  | [], [] => false
  | [], _ :: _ => true
  | _ :: _, [] => false
  | a :: as, b :: bs => if a < b then true else if b < a then false else goCharsLt as bs

/-- Go string comparison: byte-wise lexicographic, which agrees with
character-wise lexicographic on the ASCII strings compared here. -/
def goStringLt (a b : String) : Bool :=
  goCharsLt a.toList b.toList

/-- The sort.Slice comparator of FilterByAuthors: PR number ascending, then
the formatted timestamp string ascending. -/
def resultLess (a b : CommentResult) : Bool :=
  if a.prNumber ≠ b.prNumber then decide (a.prNumber < b.prNumber)
  else goStringLt a.createdAt b.createdAt

/-- The sort.Slice call of FilterByAuthors, modelled by a structural
comparison sort over the derived non-strict order. sort.Slice guarantees a
permutation ordered by the comparator; it is not guaranteed to be stable,
so the order among tied rows is implementation defined. -/
def sortResults (rs : List CommentResult) : List CommentResult :=
  rs.insertionSort (fun a b => resultLess b a = false)

/-- Query.formatJSON: json.MarshalIndent of the row list; path and line
carry omitempty tags. -/
def encodeCommentResult (r : CommentResult) : Json :=
  Json.obj
    ([("pr_number", Json.num r.prNumber), ("pr_title", Json.str r.prTitle),
      ("author", Json.str r.author), ("comment_type", Json.str r.commentType),
      ("body", Json.str r.body), ("created_at", Json.str r.createdAt),
      ("url", Json.str r.url)]
      ++ (if r.path = "" then [] else [("path", Json.str r.path)])
      ++ (match r.line with | none => [] | some n => [("line", Json.num n)]))

/-- Query.formatJSON. -/
def formatJSON (results : List CommentResult) : String :=
  renderJson 0 (Json.arr (results.map encodeCommentResult))

/-- Quoting test of the csv writer: the field holds a comma, quote or line
break, or starts with a space. -/
def csvFieldNeedsQuoting (f : String) : Bool :=
  f.any (fun c => c == ',' || c == '"' || c == '\r' || c == '\n') ||
    (f.take 1).any (fun c => c.isWhitespace)

/-- One csv field, quoted when needed, with inner quotes doubled. -/
def csvField (f : String) : String :=
  if csvFieldNeedsQuoting f then "\"" ++ (f.replace "\"" "\"\"") ++ "\"" else f

/-- One csv record line. -/
def csvRecord (fields : List String) : String :=
  String.intercalate "," (fields.map csvField) ++ "\n"

/-- Query.formatCSV: fixed 9-column header then one record per row; a null
line renders as the empty field. -/
def formatCSV (results : List CommentResult) : String :=
  csvRecord ["PR Number", "PR Title", "Author", "Type", "Body", "Created At",
      "URL", "Path", "Line"] ++
    String.join (results.map (fun r =>
      csvRecord [toString r.prNumber, r.prTitle, r.author, r.commentType, r.body,
        r.createdAt, r.url, r.path,
        match r.line with | none => "" | some n => toString n]))

/-- Go map read with zero default on the author statistics. -/
def authorStatCount (metadata : Metadata) (author : String) : Int :=
  (metadata.authorStats.lookup author).getD 0

/-- The PR numbers of the result groups, in first-encounter order. -/
def prGroupNumbers (results : List CommentResult) : List Int :=
  results.foldl (fun acc r => if acc.contains r.prNumber then acc else acc ++ [r.prNumber]) []

/-- The body of a row as printed: truncated past 500 characters with an
ellipsis marker. -/
def truncateBody (body : String) : String :=
  if body.length > 500 then body.take 497 ++ "..." else body

/-- One row of the plain-text report. -/
def stdoutRow (c : CommentResult) : String :=
  "Author: " ++ c.author ++ " | Type: " ++ c.commentType ++ " | Date: " ++
    c.createdAt ++ "\n" ++
  (if c.path != "" then
    "File: " ++ c.path ++
      (match c.line with | some n => " (line " ++ toString n ++ ")" | none => "") ++ "\n"
   else "") ++
  "URL: " ++ c.url ++ "\n\n" ++ truncateBody c.body ++ "\n\n"

/-- Query.formatStdout: repository header, per-requested-author counts from
metadata, then rows grouped by PR. -/
def formatStdout (results : List CommentResult) (metadata : Metadata)
    (authors : List String) : String :=
  "Repository: " ++ metadata.owner ++ "/" ++ metadata.repository ++ "\n" ++
  "Total PRs: " ++ toString metadata.totalPRs ++ "\n" ++
  "Last Updated: " ++ metadata.lastUpdated.format ++ "\n\n" ++
  "Author Statistics:\n" ++
  String.join (authors.map (fun a =>
    "  " ++ a ++ ": " ++ toString (authorStatCount metadata a) ++ " comments\n")) ++
  "\n" ++
  "Found " ++ toString results.length ++ " comments from selected authors in " ++
    toString (prGroupNumbers results).length ++ " PRs:\n\n" ++
  String.join ((prGroupNumbers results).map (fun n =>
    match results.filter (fun r => r.prNumber == n) with
    | [] => ""
    | g0 :: gs =>
      "PR #" ++ toString n ++ ": " ++ g0.prTitle ++ "\n" ++
        String.mk (List.replicate 80 '-') ++ "\n" ++
        String.join ((g0 :: gs).map stdoutRow) ++ "\n"))

/-- Query.FilterByAuthors: metadata load first (an error aborts whatever the
format), then row collection, the sort, and format dispatch. -/
def FilterByAuthors (authors : List String) (outputFormat : String)
    (store : QueryStore) : Except String String :=
  match store.metadata with
  | none => Except.error "failed to load metadata"
  | some metadata =>
    let results := sortResults (collectResults authors store.pulls)
    match outputFormat with
    | "json" => Except.ok (formatJSON results)
    | "csv" => Except.ok (formatCSV results)
    | _ => Except.ok (formatStdout results metadata authors)

/-- A fully parsed store content: one tuple of pr record, comment list and
review list per downloaded PR, as the downloader writes them. -/
def cleanPulls (entries : List (PullRequest × List Comment × List Review)) :
    List (Int × PRFiles) :=
  entries.map (fun e =>
    (e.1.number,
      { pr := some e.1, commits := some [], comments := some e.2.1,
        reviews := some e.2.2 }))

/-- Modelled from the claim wording of C3: the result contains exactly the
comments whose author login is selected, plus the reviews whose author
login is selected and whose body is non-empty, as normalized rows. -/
def specRows (authors : List String)
    (entries : List (PullRequest × List Comment × List Review)) :
    List CommentResult :=
  entries.flatMap (fun e =>
    ((e.2.1.filter (fun c => authors.contains c.user.login)).map (commentRow e.1)) ++
      ((e.2.2.filter (fun r => authors.contains r.user.login && r.body != "")).map
        (reviewRow e.1)))

lemma foldl_queryStep_clean (authors : List String)
    (entries : List (PullRequest × List Comment × List Review)) :
    ∀ acc : List CommentResult,
      (cleanPulls entries).foldl (queryStep authors) acc =
        acc ++ specRows authors entries := by
  induction entries with
  | nil => intro acc; simp [cleanPulls, specRows]
  | cons e es ih =>
    intro acc
    simp only [cleanPulls, specRows, List.map_cons, List.foldl_cons,
      List.flatMap_cons] at *
    rw [ih]
    simp [queryStep, List.append_assoc]

/-- The concrete store of the C3 example: PR #42 with review comments by
alice and bob and one review by alice with body "looks good". -/
def pr42Entries : List (PullRequest × List Comment × List Review) :=
  [({ number := 42, title := "refactor parser internals" },
    [{ id := 1, body := "rename this", user := { login := "alice" }, type := "review",
       createdAt := ⟨"2024-03-01T10:00:00Z"⟩, path := "a.go", diffHunk := "@@" },
     { id := 2, body := "split this function", user := { login := "bob" }, type := "review",
       createdAt := ⟨"2024-03-01T11:00:00Z"⟩, path := "b.go", diffHunk := "@@" }],
    [{ id := 3, user := { login := "alice" }, body := "looks good",
       state := "APPROVED", submittedAt := ⟨"2024-03-02T09:00:00Z"⟩ }])]

/-- C3. Query filter exactness: over every fully parsed store, the rows of
FilterByAuthors are, up to the final sort, exactly the comments whose
author is selected plus the non-empty-body reviews whose author is
selected; and on the PR #42 example, filtering by alice yields exactly 2
rows and filtering by carol yields 0 rows. -/
theorem filterByAuthors_exact :
    (∀ (authors : List String)
      (entries : List (PullRequest × List Comment × List Review)),
        List.Perm (sortResults (collectResults authors (cleanPulls entries)))
          (specRows authors entries)) ∧
      (sortResults (collectResults ["alice"] (cleanPulls pr42Entries))).length = 2 ∧
      (sortResults (collectResults ["carol"] (cleanPulls pr42Entries))).length = 0 := by
  refine ⟨fun authors entries => ?_, rfl, rfl⟩
  have hperm := List.perm_insertionSort
    (fun a b : CommentResult => resultLess b a = false)
    (collectResults authors (cleanPulls entries))
  have heq : collectResults authors (cleanPulls entries) = specRows authors entries := by
    simpa [collectResults] using foldl_queryStep_clean authors entries []
  rw [heq] at hperm
  simpa [sortResults, heq] using hperm

/-- C9. A comments.json load failure makes FilterByAuthors skip the whole
PR: the entry contributes no rows at all, its reviews file never being
consulted, whatever reviews it holds. -/
theorem filterByAuthors_skips_pr_on_comments_load_failure
    (authors : List String) (pre post : List (Int × PRFiles)) (n : Int)
    (files : PRFiles) (h : files.comments = none) :
    collectResults authors (pre ++ (n, files) :: post) =
      collectResults authors (pre ++ post) := by
  have hstep : ∀ acc, queryStep authors acc (n, files) = acc := by
    intro acc
    unfold queryStep
    cases files.pr <;> simp [h]
  simp [collectResults, List.foldl_append, List.foldl_cons, hstep]

/-- Files whose comments.json is malformed while reviews.json holds a
review by alice with non-empty body. -/
def brokenCommentsFiles : PRFiles :=
  { pr := some { number := 7, title := "broken" },
    commits := some [],
    comments := none,
    reviews := some
      [{ id := 9, user := { login := "alice" }, body := "nice work",
         state := "APPROVED", submittedAt := ⟨"2024-04-01T08:00:00Z"⟩ }] }

/-- Witness for C9: the PR with a failing comments load and an alice review
contributes nothing next to the PR #42 example store. -/
theorem filterByAuthors_skips_pr_witness :
    collectResults ["alice"] ([] ++ (7, brokenCommentsFiles) :: cleanPulls pr42Entries) =
      collectResults ["alice"] ([] ++ cleanPulls pr42Entries) :=
  filterByAuthors_skips_pr_on_comments_load_failure ["alice"] [] (cleanPulls pr42Entries)
    7 brokenCommentsFiles rfl

/-- C10. FilterByAuthors fails, producing no output, whenever the metadata
load fails, for every output format, the json and csv formats included
although their rendering does not read the metadata. -/
theorem filterByAuthors_requires_metadata (authors : List String)
    (outputFormat : String) (store : QueryStore) (h : store.metadata = none) :
    FilterByAuthors authors outputFormat store =
      Except.error "failed to load metadata" := by
  unfold FilterByAuthors
  rw [h]

/-- Witness for C10: with no metadata but a fully parsed PR #42 store, the
json and csv formats both return the metadata error. -/
theorem filterByAuthors_requires_metadata_witness :
    FilterByAuthors ["alice"] "json" { metadata := none, pulls := cleanPulls pr42Entries } =
        Except.error "failed to load metadata" ∧
      FilterByAuthors ["alice"] "csv" { metadata := none, pulls := cleanPulls pr42Entries } =
        Except.error "failed to load metadata" :=
  ⟨filterByAuthors_requires_metadata ["alice"] "json" _ rfl,
    filterByAuthors_requires_metadata ["alice"] "csv" _ rfl⟩

/-!
Gemini client post-processing (gemini package, Client.ProcessPR): locating
a JSON object substring in the free-form generation output and parsing it,
a parse failure being non-fatal.
-/

/-- Parsed shape of the generation output: learnings and topics. -/
structure ParsedLearnings where
  learnings : List String
  topics : List String
  deriving Repr, DecidableEq

/-- strings.Index(text, open brace): position of the first opening brace.
Go returns a byte index and this model a character index; the brace is a
one-byte character, so both name the same position of the text. -/
def firstBraceIdx (text : String) : Option Nat :=
  text.toList.findIdx? (fun c => c == '{')

/-- strings.LastIndex(text, close brace): position of the last closing
brace. -/
def lastBraceIdx (text : String) : Option Nat :=
  match text.toList.reverse.findIdx? (fun c => c == '}') with
  | none => none
  | some i => some (text.toList.length - 1 - i)

/-- JSON substring location of Client.ProcessPR: the segment from the first
opening brace to the last closing brace, both included, when both exist in
that order; `none` otherwise, in which case no parse is attempted and the
result fields stay zero valued. -/
def extractJsonText (text : String) : Option String :=
  match firstBraceIdx text, lastBraceIdx text with
  | some s, some e =>
    if s < e then some (String.mk ((text.toList.drop s).take (e + 1 - s))) else none
  | _, _ => none

/-- Client.ProcessPR from the GenerateContent outcome on: `genResult` is an
error or the response text (`none` standing for a response without
candidates or parts); `parse` models json.Unmarshal into the
learnings/topics shape, `none` being a parse error. Parse errors and
missing braces both yield a Learning with empty fields and no error; the
PR number and title always come from the PR record. -/
def ProcessPR (parse : String → Option ParsedLearnings) (now : String)
    (pr : PullRequest) (genResult : Except String (Option String)) :
    Except String Learning :=
  match genResult with
  | Except.error e => Except.error ("failed to generate content: " ++ e)
  | Except.ok textOpt =>
    let result : ParsedLearnings :=
      match textOpt with
      | none => ⟨[], []⟩
      | some text =>
        match extractJsonText text with
        | none => ⟨[], []⟩
        | some jsonText =>
          match parse jsonText with
          | none => ⟨[], []⟩
          | some r => r
    Except.ok
      { prNumber := pr.number, prTitle := pr.title,
        learnings := result.learnings, topics := result.topics, processedAt := now }

/-- C8. Malformed generation output degrades and never aborts: whenever the
response text has a first opening brace at s and a last closing brace at
e past it, and the enclosed substring fails to parse, ProcessPR returns,
without error, a Learning for the PR with empty learnings and topics. -/
theorem processPR_degrades_on_parse_failure
    (parse : String → Option ParsedLearnings) (now : String) (pr : PullRequest)
    (text : String) (s e : Nat)
    (hs : firstBraceIdx text = some s) (he : lastBraceIdx text = some e)
    (hse : s < e)
    (hparse : parse (String.mk ((text.toList.drop s).take (e + 1 - s))) = none) :
    ProcessPR parse now pr (Except.ok (some text)) =
      Except.ok
        { prNumber := pr.number, prTitle := pr.title, learnings := [],
          topics := [], processedAt := now } := by
  have hex : extractJsonText text =
      some (String.mk ((text.toList.drop s).take (e + 1 - s))) := by
    unfold extractJsonText
    rw [hs, he]
    simp [hse]
  simp only [String.toList] at hparse
  simp [ProcessPR, hex, hparse]

/-- Witness for C8: on a concrete free-form response whose brace-delimited
substring never parses, ProcessPR yields the empty Learning for PR #3
without error. -/
theorem processPR_degrades_witness :
    ProcessPR (fun _ => none) "t" { number := 3, title := "demo" }
        (Except.ok (some "Sure! \x7bnot json at all\x7d bye")) =
      Except.ok
        { prNumber := 3, prTitle := "demo", learnings := [],
          topics := [], processedAt := "t" } :=
  processPR_degrades_on_parse_failure (fun _ => none) "t" _ _ 6 22
    rfl rfl (by decide) rfl

/-!
Download orchestrator (downloader package, Downloader.DownloadAll and
Downloader.updateAuthorStats): per-PR fetch and save with skip-and-continue
on failure, folding author statistics over the successful PRs. Statistics
are the Go map read as a total function with zero default.
-/

/-- One PR of a download run: the outcomes of the four per-PR fetches
(`none` is a fetch error) and of the savePRData persistence. -/
structure RemotePR where
  number : Int := 0
  detail : Option PullRequest := none
  commits : Option (List Commit) := none
  comments : Option (List Comment) := none
  reviews : Option (List Review) := none
  saveOk : Bool := true

/-- Downloader.downloadPRData: all four fetches must succeed. -/
def downloadPRData (r : RemotePR) : Option PRData :=
  match r.detail, r.commits, r.comments, r.reviews with
  | some pr, some cs, some cms, some rvs =>
    some { pr := pr, commits := cs, comments := cms, reviews := rvs }
  | _, _, _, _ => none

/-- Go map increment at one author login. -/
def bump (stats : String → Nat) (login : String) : String → Nat :=
  fun a => if a = login then stats login + 1 else stats a

/-- Downloader.updateAuthorStats: every comment counts toward its author,
then every review with a non-empty body. -/
def updateAuthorStats (stats : String → Nat) (data : PRData) : String → Nat :=
  let stats1 := data.comments.foldl (fun st c => bump st c.user.login) stats
  data.reviews.foldl (fun st r => if r.body != "" then bump st r.user.login else st) stats1

/-- One iteration of the DownloadAll loop: a fetch error or a save error
skips the PR, leaving the statistics untouched. -/
def downloadStep (stats : String → Nat) (r : RemotePR) : String → Nat :=
  match downloadPRData r with
  | none => stats
  | some prData => if r.saveOk then updateAuthorStats stats prData else stats

/-- Downloader.DownloadAll restricted to its author-statistics effect,
starting from empty metadata. -/
def downloadAllStats (allPRs : List RemotePR) : String → Nat :=
  allPRs.foldl downloadStep (fun _ => 0)

/-- Every fetched comment carries the issue or review type discriminator,
as Client.GetPRComments produces. -/
def commentTypesOk (allPRs : List RemotePR) : Bool :=
  allPRs.all (fun r =>
    match r.comments with
    | none => true
    | some cs => cs.all (fun c => c.type == "issue" || c.type == "review"))

/-- Modelled from the claim wording of C6, the contribution of one PR: for
a successfully downloaded PR, the number of issue and review comments by
the author plus the number of non-empty-body reviews by the author; zero
for a skipped PR. -/
def specPRCount (author : String) (r : RemotePR) : Nat :=
  match downloadPRData r with
  | none => 0
  | some d =>
    if r.saveOk then
      (d.comments.filter (fun c =>
        (c.type == "issue" || c.type == "review") && c.user.login == author)).length +
        (d.reviews.filter (fun rv => rv.user.login == author && rv.body != "")).length
    else 0

/-- Modelled from the claim wording of C6: the sum over all downloaded PRs
of the per-PR contribution. -/
def specAuthorCount (author : String) (allPRs : List RemotePR) : Nat :=
  (allPRs.map (specPRCount author)).sum

lemma foldl_bump_comments (cs : List Comment) :
    ∀ (stats : String → Nat) (a : String),
      (cs.foldl (fun st c => bump st c.user.login) stats) a =
        stats a + (cs.filter (fun c => c.user.login == a)).length := by
  induction cs with
  | nil => intro stats a; simp
  | cons c cs ih =>
    intro stats a
    simp only [List.foldl_cons, List.filter_cons]
    rw [ih]
    by_cases hca : c.user.login = a
    · subst hca
      simp [bump]
      omega
    · have hb : (c.user.login == a) = false := by
        simpa using hca
      simp [bump, hb, hca]
      intro h
      exact absurd h.symm hca

lemma foldl_bump_reviews (rvs : List Review) :
    ∀ (stats : String → Nat) (a : String),
      (rvs.foldl (fun st r => if r.body != "" then bump st r.user.login else st) stats) a =
        stats a + (rvs.filter (fun rv => rv.user.login == a && rv.body != "")).length := by
  induction rvs with
  | nil => intro stats a; simp
  | cons r rvs ih =>
    intro stats a
    simp only [List.foldl_cons, List.filter_cons]
    rw [ih]
    by_cases hbody : r.body = ""
    · simp [hbody]
    · have hb : (r.body != "") = true := by simpa using hbody
      simp only [hb, Bool.and_true]
      by_cases hra : r.user.login = a
      · subst hra
        simp [bump]
        omega
      · have hrb : (r.user.login == a) = false := by simpa using hra
        simp [bump, hrb, hra]
        intro h
        exact absurd h.symm hra

lemma downloadPRData_comments {r : RemotePR} {d : PRData}
    (h : downloadPRData r = some d) : r.comments = some d.comments := by
  obtain ⟨n, det, cms, cmts, rvs, sv⟩ := r
  unfold downloadPRData at h
  cases det <;> cases cms <;> cases cmts <;> cases rvs <;>
    first
      | (rw [Option.some.injEq] at h; exact congrArg (fun p => some (PRData.comments p)) h)
      | simp_all

lemma updateAuthorStats_count (stats : String → Nat) (d : PRData) (a : String)
    (h : ∀ c ∈ d.comments, (c.type == "issue" || c.type == "review") = true) :
    updateAuthorStats stats d a =
      stats a + ((d.comments.filter (fun c =>
        (c.type == "issue" || c.type == "review") && c.user.login == a)).length +
        (d.reviews.filter (fun rv => rv.user.login == a && rv.body != "")).length) := by
  unfold updateAuthorStats
  rw [foldl_bump_reviews, foldl_bump_comments]
  have hfilter : d.comments.filter (fun c =>
      (c.type == "issue" || c.type == "review") && c.user.login == a) =
      d.comments.filter (fun c => c.user.login == a) := by
    apply List.filter_congr
    intro c hc
    rw [h c hc]
    simp
  rw [hfilter]
  omega

lemma downloadStep_none {stats : String → Nat} {r : RemotePR}
    (h : downloadPRData r = none) : downloadStep stats r = stats := by
  unfold downloadStep; rw [h]

lemma downloadStep_some_save {stats : String → Nat} {r : RemotePR} {d : PRData}
    (h : downloadPRData r = some d) (hs : r.saveOk = true) :
    downloadStep stats r = updateAuthorStats stats d := by
  unfold downloadStep; rw [h, hs]; simp

lemma downloadStep_some_nosave {stats : String → Nat} {r : RemotePR} {d : PRData}
    (h : downloadPRData r = some d) (hs : r.saveOk = false) :
    downloadStep stats r = stats := by
  unfold downloadStep; rw [h, hs]; simp

lemma specPRCount_none (author : String) {r : RemotePR}
    (h : downloadPRData r = none) : specPRCount author r = 0 := by
  unfold specPRCount; rw [h]

lemma specPRCount_some_save (author : String) {r : RemotePR} {d : PRData}
    (h : downloadPRData r = some d) (hs : r.saveOk = true) :
    specPRCount author r =
      (d.comments.filter (fun c =>
        (c.type == "issue" || c.type == "review") && c.user.login == author)).length +
        (d.reviews.filter (fun rv => rv.user.login == author && rv.body != "")).length := by
  unfold specPRCount; rw [h, hs]; simp

lemma specPRCount_some_nosave (author : String) {r : RemotePR} {d : PRData}
    (h : downloadPRData r = some d) (hs : r.saveOk = false) :
    specPRCount author r = 0 := by
  unfold specPRCount; rw [h, hs]; simp

/-- C6. Author statistics correctness: after DownloadAll from empty
metadata, each author count equals the sum over the successfully
downloaded PRs of the issue and review comments by that author plus the
non-empty-body reviews by that author (fetched comments carrying the
issue or review discriminator, as the fetch client produces them). -/
theorem downloadAll_author_stats (allPRs : List RemotePR) (author : String)
    (h : commentTypesOk allPRs = true) :
    downloadAllStats allPRs author = specAuthorCount author allPRs := by
  suffices hgen : ∀ (stats : String → Nat),
      (allPRs.foldl downloadStep stats) author = stats author + specAuthorCount author allPRs by
    simpa [downloadAllStats] using hgen (fun _ => 0)
  induction allPRs with
  | nil => intro stats; simp [specAuthorCount]
  | cons r rs ih =>
    intro stats
    have hr := (List.all_eq_true.1 h) r (by simp)
    have hrest : commentTypesOk rs = true := by
      rw [commentTypesOk, List.all_eq_true]
      intro x hx
      exact (List.all_eq_true.1 h) x (by simp [hx])
    simp only [List.foldl_cons, specAuthorCount, List.map_cons, List.sum_cons]
    rw [ih hrest]
    have hsum : (List.map (specPRCount author) rs).sum = specAuthorCount author rs := rfl
    rw [hsum]
    cases hdl : downloadPRData r with
    | none =>
      rw [downloadStep_none hdl, specPRCount_none author hdl]
      omega
    | some d =>
      cases hsv : r.saveOk with
      | false =>
        rw [downloadStep_some_nosave hdl hsv, specPRCount_some_nosave author hdl hsv]
        omega
      | true =>
        have hcomments : ∀ c ∈ d.comments,
            (c.type == "issue" || c.type == "review") = true := by
          intro c hc
          rw [downloadPRData_comments hdl] at hr
          exact (List.all_eq_true.1 hr) c hc
        rw [downloadStep_some_save hdl hsv,
          updateAuthorStats_count stats d author hcomments,
          specPRCount_some_save author hdl hsv]
        omega

/-- Synthetic two-PR download of the C6 witness: PR #1 by alice and bob,
PR #2 with an empty-body review by alice and one more alice comment. -/
def demoRemote : List RemotePR :=
  [{ number := 1,
     detail := some { number := 1, title := "one" },
     commits := some [],
     comments := some
       [{ id := 1, user := { login := "alice" }, type := "issue", body := "hi" },
        { id := 2, user := { login := "bob" }, type := "review", body := "fix",
          diffHunk := "@@" }],
     reviews := some
       [{ id := 3, user := { login := "alice" }, body := "looks good",
          state := "APPROVED" }] },
   { number := 2,
     detail := some { number := 2, title := "two" },
     commits := some [],
     comments := some
       [{ id := 4, user := { login := "alice" }, type := "review", body := "nit",
          diffHunk := "@@" }],
     reviews := some
       [{ id := 5, user := { login := "alice" }, body := "", state := "APPROVED" }] }]

/-- Witness for C6: on the synthetic two-PR download, the folded statistic
for alice matches the claim sum and equals 3 (two comments, one non-empty
review body; the empty review body of PR #2 does not count). -/
theorem downloadAll_author_stats_witness :
    downloadAllStats demoRemote "alice" = specAuthorCount "alice" demoRemote ∧
      downloadAllStats demoRemote "alice" = 3 :=
  ⟨downloadAll_author_stats demoRemote "alice" rfl, rfl⟩

/-!
Persistence round-trip (downloader saveJSON writing with encoding/json, the
typed loaders of query.go and the processor reading back).

Encoders emit fields in struct declaration order, omitting omitempty fields
at their zero value, exactly as encoding/json does on these types. Decoders
read fields by name with the Go zero value for an absent field and nil for
an absent or null pointer field. The program only decodes files it wrote,
on which every present field has its declared shape, so a shape mismatch
(an UnmarshalTypeError in Go) is defaulted rather than threaded. -/

/-- Object field lookup by name. -/
def jget (fields : List (String × Json)) (k : String) : Option Json :=
  fields.lookup k

/-- String field with Go zero value for an absent field. -/
def getStr (fields : List (String × Json)) (k : String) : String :=
  match jget fields k with
  | some (Json.str s) => s
  | _ => ""

/-- Integer field with Go zero value for an absent field. -/
def getInt (fields : List (String × Json)) (k : String) : Int :=
  match jget fields k with
  | some (Json.num n) => n
  | _ => 0

/-- Nullable integer pointer field: nil when absent or null. -/
def getOptInt (fields : List (String × Json)) (k : String) : Option Int :=
  match jget fields k with
  | some (Json.num n) => some n
  | _ => none

/-- Timestamp field, carried by its RFC3339 string. -/
def getTime (fields : List (String × Json)) (k : String) : GoTime :=
  match jget fields k with
  | some (Json.str s) => ⟨s⟩
  | _ => ⟨""⟩

/-- Nullable timestamp pointer field: nil when absent or null. -/
def getOptTime (fields : List (String × Json)) (k : String) : Option GoTime :=
  match jget fields k with
  | some (Json.str s) => some ⟨s⟩
  | _ => none

/-- models.User on the wire. -/
def encodeUser (u : User) : Json :=
  Json.obj [("login", Json.str u.login), ("id", Json.num u.id),
    ("avatar_url", Json.str u.avatarUrl), ("html_url", Json.str u.htmlUrl),
    ("type", Json.str u.type)]

/-- User built from object fields, Go zero value when absent. -/
def decodeUserFields (fields : List (String × Json)) : User :=
  { login := getStr fields "login", id := getInt fields "id",
    avatarUrl := getStr fields "avatar_url", htmlUrl := getStr fields "html_url",
    type := getStr fields "type" }

/-- Nested user field. -/
def getUser (fields : List (String × Json)) (k : String) : User :=
  match jget fields k with
  | some (Json.obj fs) => decodeUserFields fs
  | _ => {}

/-- models.Branch on the wire. -/
def encodeBranch (b : Branch) : Json :=
  Json.obj [("label", Json.str b.label), ("ref", Json.str b.ref),
    ("sha", Json.str b.sha)]

/-- Branch built from object fields. -/
def decodeBranchFields (fields : List (String × Json)) : Branch :=
  { label := getStr fields "label", ref := getStr fields "ref",
    sha := getStr fields "sha" }

/-- Nested branch field. -/
def getBranch (fields : List (String × Json)) (k : String) : Branch :=
  match jget fields k with
  | some (Json.obj fs) => decodeBranchFields fs
  | _ => {}

/-- String field under omitempty: omitted at the empty string. -/
def strField (k s : String) : List (String × Json) :=
  if s = "" then [] else [(k, Json.str s)]

/-- Pointer integer field under omitempty: omitted at nil. -/
def optIntField (k : String) (v : Option Int) : List (String × Json) :=
  match v with
  | none => []
  | some n => [(k, Json.num n)]

/-- Pointer timestamp field under omitempty: omitted at nil. -/
def optTimeField (k : String) (v : Option GoTime) : List (String × Json) :=
  match v with
  | none => []
  | some t => [(k, Json.str t.rfc3339)]

/-- models.PullRequest on the wire, fields in declaration order, closed_at
and merged_at omitted when nil. -/
def encodePullRequest (pr : PullRequest) : Json :=
  Json.obj
    ([("number", Json.num pr.number), ("title", Json.str pr.title),
      ("state", Json.str pr.state), ("body", Json.str pr.body),
      ("created_at", Json.str pr.createdAt.rfc3339),
      ("updated_at", Json.str pr.updatedAt.rfc3339)]
      ++ optTimeField "closed_at" pr.closedAt
      ++ optTimeField "merged_at" pr.mergedAt
      ++ [("user", encodeUser pr.user), ("base", encodeBranch pr.base),
          ("head", encodeBranch pr.head), ("url", Json.str pr.url),
          ("html_url", Json.str pr.htmlUrl), ("comments_url", Json.str pr.commentsUrl),
          ("review_comments", Json.num pr.reviewComments), ("comments", Json.num pr.comments),
          ("commits", Json.num pr.commits), ("additions", Json.num pr.additions),
          ("deletions", Json.num pr.deletions), ("changed_files", Json.num pr.changedFiles)])

/-- Loader of a pr.json document. -/
def decodePullRequest (j : Json) : Option PullRequest :=
  match j with
  | Json.obj fields => some
    { number := getInt fields "number", title := getStr fields "title",
      state := getStr fields "state", body := getStr fields "body",
      createdAt := getTime fields "created_at", updatedAt := getTime fields "updated_at",
      closedAt := getOptTime fields "closed_at", mergedAt := getOptTime fields "merged_at",
      user := getUser fields "user", base := getBranch fields "base",
      head := getBranch fields "head", url := getStr fields "url",
      htmlUrl := getStr fields "html_url", commentsUrl := getStr fields "comments_url",
      reviewComments := getInt fields "review_comments", comments := getInt fields "comments",
      commits := getInt fields "commits", additions := getInt fields "additions",
      deletions := getInt fields "deletions", changedFiles := getInt fields "changed_files" }
  | _ => none

/-- models.Commit on the wire. -/
def encodeCommit (c : Commit) : Json :=
  Json.obj [("sha", Json.str c.sha), ("author", encodeUser c.author),
    ("committer", encodeUser c.committer), ("message", Json.str c.message),
    ("url", Json.str c.url), ("date", Json.str c.date.rfc3339)]

/-- One commit entry of a commits.json document. -/
def decodeCommit (j : Json) : Option Commit :=
  match j with
  | Json.obj fields => some
    { sha := getStr fields "sha", author := getUser fields "author",
      committer := getUser fields "committer", message := getStr fields "message",
      url := getStr fields "url", date := getTime fields "date" }
  | _ => none

/-- models.Comment on the wire, fields in declaration order, the review-only
fields omitted at their zero values. -/
def encodeComment (c : Comment) : Json :=
  Json.obj
    ([("id", Json.num c.id), ("body", Json.str c.body), ("user", encodeUser c.user),
      ("created_at", Json.str c.createdAt.rfc3339),
      ("updated_at", Json.str c.updatedAt.rfc3339),
      ("url", Json.str c.url), ("html_url", Json.str c.htmlUrl),
      ("type", Json.str c.type)]
      ++ strField "path" c.path
      ++ optIntField "position" c.position
      ++ optIntField "line" c.line
      ++ optIntField "start_line" c.startLine
      ++ optIntField "original_position" c.originalPosition
      ++ optIntField "original_start_line" c.originalStartLine
      ++ strField "commit_id" c.commitId
      ++ strField "original_commit_id" c.originalCommitId
      ++ strField "diff_hunk" c.diffHunk
      ++ optIntField "in_reply_to_id" c.inReplyToId)

/-- Comment built from object fields. -/
def decodeCommentFields (fields : List (String × Json)) : Comment :=
  { id := getInt fields "id", body := getStr fields "body",
    user := getUser fields "user", createdAt := getTime fields "created_at",
    updatedAt := getTime fields "updated_at", url := getStr fields "url",
    htmlUrl := getStr fields "html_url", type := getStr fields "type",
    path := getStr fields "path", position := getOptInt fields "position",
    line := getOptInt fields "line", startLine := getOptInt fields "start_line",
    originalPosition := getOptInt fields "original_position",
    originalStartLine := getOptInt fields "original_start_line",
    commitId := getStr fields "commit_id",
    originalCommitId := getStr fields "original_commit_id",
    diffHunk := getStr fields "diff_hunk",
    inReplyToId := getOptInt fields "in_reply_to_id" }

/-- One comment entry of a comments.json document. -/
def decodeComment (j : Json) : Option Comment :=
  match j with
  | Json.obj fields => some (decodeCommentFields fields)
  | _ => none

/-- models.Review on the wire. -/
def encodeReview (r : Review) : Json :=
  Json.obj [("id", Json.num r.id), ("user", encodeUser r.user),
    ("body", Json.str r.body), ("state", Json.str r.state),
    ("html_url", Json.str r.htmlUrl),
    ("submitted_at", Json.str r.submittedAt.rfc3339),
    ("commit_id", Json.str r.commitId)]

/-- One review entry of a reviews.json document. -/
def decodeReview (j : Json) : Option Review :=
  match j with
  | Json.obj fields => some
    { id := getInt fields "id", user := getUser fields "user",
      body := getStr fields "body", state := getStr fields "state",
      htmlUrl := getStr fields "html_url",
      submittedAt := getTime fields "submitted_at",
      commitId := getStr fields "commit_id" }
  | _ => none

/-- One entry of the author statistics map on the wire. -/
def encodeStatPair (kv : String × Int) : String × Json :=
  (kv.1, Json.num kv.2)

/-- One entry of the author statistics map read back. -/
def decodeStatPair (kv : String × Json) : String × Int :=
  (kv.1, match kv.2 with | Json.num n => n | _ => 0)

/-- models.Metadata on the wire; the Go map appears as an object in its
canonical association-list form. -/
def encodeMetadata (md : Metadata) : Json :=
  Json.obj
    [("last_updated", Json.str md.lastUpdated.rfc3339),
     ("total_prs", Json.num md.totalPRs),
     ("repository", Json.str md.repository), ("owner", Json.str md.owner),
     ("author_stats", Json.obj (md.authorStats.map encodeStatPair))]

/-- The author statistics object read back. -/
def getStats (fields : List (String × Json)) (k : String) : List (String × Int) :=
  match jget fields k with
  | some (Json.obj fs) => fs.map decodeStatPair
  | _ => []

/-- Loader of the metadata.json document. -/
def decodeMetadata (j : Json) : Option Metadata :=
  match j with
  | Json.obj fields => some
    { lastUpdated := getTime fields "last_updated",
      totalPRs := getInt fields "total_prs",
      repository := getStr fields "repository", owner := getStr fields "owner",
      authorStats := getStats fields "author_stats" }
  | _ => none

/-- A slice on the wire. Go marshals a nil slice as null and unmarshals
null back to nil; the nil and empty slices behave identically in this
program and both are the empty list here. -/
def encodeList {α : Type} (enc : α → Json) (xs : List α) : Json :=
  Json.arr (xs.map enc)

/-- Element-wise decoding of an array, any failing element failing the
whole load. -/
def decodeElems {α : Type} (dec : Json → Option α) : List Json → Option (List α)
  | [] => some []
  | x :: xs =>
    match dec x with
    | none => none
    | some y =>
      match decodeElems dec xs with
      | none => none
      | some ys => some (y :: ys)

/-- Loader of a JSON array document: element order kept, null giving the
nil slice. -/
def decodeList {α : Type} (dec : Json → Option α) (j : Json) : Option (List α) :=
  match j with
  | Json.arr xs => decodeElems dec xs
  | Json.null => some []
  | _ => none

lemma decodeElems_map {α : Type} (enc : α → Json) (dec : Json → Option α)
    (h : ∀ x, dec (enc x) = some x) :
    ∀ xs : List α, decodeElems dec (xs.map enc) = some xs := by
  intro xs
  induction xs with
  | nil => rfl
  | cons x xs ih => simp [decodeElems, h x, ih]

lemma decodeList_encodeList {α : Type} (enc : α → Json) (dec : Json → Option α)
    (h : ∀ x, dec (enc x) = some x) (xs : List α) :
    decodeList dec (encodeList enc xs) = some xs :=
  decodeElems_map enc dec h xs

lemma pullRequest_roundtrip (pr : PullRequest) :
    decodePullRequest (encodePullRequest pr) = some pr := by
  obtain ⟨n, ti, st, bo, ca, ua, cla, ma, u, ba, he, url, hu, cu, rc, cm, cms, ad, de, cf⟩ := pr
  cases cla <;> cases ma <;> rfl

lemma commit_roundtrip (c : Commit) : decodeCommit (encodeCommit c) = some c := by
  obtain ⟨sha, au, co, me, url, da⟩ := c
  rfl

lemma review_roundtrip (r : Review) : decodeReview (encodeReview r) = some r := by
  obtain ⟨i, u, bo, st, hu, su, ci⟩ := r
  rfl

lemma jget_nil (k : String) : jget [] k = none := rfl

lemma jget_cons_self (k : String) (v : Json) (rest : List (String × Json)) :
    jget ((k, v) :: rest) k = some v := by
  simp [jget, List.lookup]

lemma jget_cons_ne {k k2 : String} (v : Json) (rest : List (String × Json))
    (h : ¬ k = k2) : jget ((k2, v) :: rest) k = jget rest k := by
  have hb : (k == k2) = false := by simpa using h
  simp [jget, List.lookup, hb]

lemma jget_append (A B : List (String × Json)) (k : String) :
    jget (A ++ B) k = (jget A k).or (jget B k) :=
  List.lookup_append

lemma jget_strField_self (k s : String) :
    jget (strField k s) k = if s = "" then none else some (Json.str s) := by
  unfold strField
  split <;> simp [jget_cons_self, jget_nil]

lemma jget_strField_ne {k k2 : String} (s : String) (h : ¬ k = k2) :
    jget (strField k2 s) k = none := by
  unfold strField
  split <;> simp [jget_cons_ne _ _ h, jget_nil]

lemma jget_optIntField_self (k : String) (v : Option Int) :
    jget (optIntField k v) k = v.map Json.num := by
  cases v <;> simp [optIntField, jget_cons_self, jget_nil]

lemma jget_optIntField_ne {k k2 : String} (v : Option Int) (h : ¬ k = k2) :
    jget (optIntField k2 v) k = none := by
  cases v <;> simp [optIntField, jget_cons_ne _ _ h, jget_nil]

lemma jget_optTimeField_self (k : String) (v : Option GoTime) :
    jget (optTimeField k v) k = v.map (fun t => Json.str t.rfc3339) := by
  cases v <;> simp [optTimeField, jget_cons_self, jget_nil]

lemma jget_optTimeField_ne {k k2 : String} (v : Option GoTime) (h : ¬ k = k2) :
    jget (optTimeField k2 v) k = none := by
  cases v <;> simp [optTimeField, jget_cons_ne _ _ h, jget_nil]

lemma comment_roundtrip (c : Comment) : decodeComment (encodeComment c) = some c := by
  obtain ⟨i, bo, u, ca, ua, url, hu, ty, pa, pos, li, sl, op, osl, ci, oci, dh, ir⟩ := c
  simp only [encodeComment, decodeComment, decodeCommentFields, Option.some.injEq,
    Comment.mk.injEq]
  refine ⟨?_, ?_, ?_, ?_, ?_, ?_, ?_, ?_, ?_, ?_, ?_, ?_, ?_, ?_, ?_, ?_, ?_, ?_⟩ <;>
    simp [getStr, getInt, getOptInt, getTime, getUser, jget_append,
      jget_cons_self, jget_cons_ne, jget_nil, jget_strField_self, jget_strField_ne,
      jget_optIntField_self, jget_optIntField_ne] <;>
    first
      | rfl
      | (cases pos <;> rfl)
      | (cases li <;> rfl)
      | (cases sl <;> rfl)
      | (cases op <;> rfl)
      | (cases osl <;> rfl)
      | (cases ir <;> rfl)
      | (by_cases h : pa = "" <;> simp [h])
      | (by_cases h : ci = "" <;> simp [h])
      | (by_cases h : oci = "" <;> simp [h])
      | (by_cases h : dh = "" <;> simp [h])

lemma authorStats_roundtrip (l : List (String × Int)) :
    (l.map encodeStatPair).map decodeStatPair = l := by
  induction l with
  | nil => rfl
  | cons kv l ih => simp [encodeStatPair, decodeStatPair, ih]

lemma metadata_roundtrip (md : Metadata) :
    decodeMetadata (encodeMetadata md) = some md := by
  obtain ⟨lu, tp, re, ow, stats⟩ := md
  calc decodeMetadata (encodeMetadata ⟨lu, tp, re, ow, stats⟩)
      = some ⟨lu, tp, re, ow, (stats.map encodeStatPair).map decodeStatPair⟩ := rfl
    _ = some ⟨lu, tp, re, ow, stats⟩ := by rw [authorStats_roundtrip stats]

/-- C7. Persistence round-trip: every PullRequest, Commit list, Comment
list, Review list and Metadata value written by the JSON encoder loads back
field for field; a PullRequest with absent closed and merged timestamps
loads back with both absent, and a review comment whose line field is null
on disk loads back as nil, not zero, while its other fields still parse. -/
theorem json_roundtrip :
    (∀ pr : PullRequest, decodePullRequest (encodePullRequest pr) = some pr) ∧
      (∀ cs : List Commit,
        decodeList decodeCommit (encodeList encodeCommit cs) = some cs) ∧
      (∀ cms : List Comment,
        decodeList decodeComment (encodeList encodeComment cms) = some cms) ∧
      (∀ rvs : List Review,
        decodeList decodeReview (encodeList encodeReview rvs) = some rvs) ∧
      (∀ md : Metadata, decodeMetadata (encodeMetadata md) = some md) ∧
      (decodeCommentFields [("id", Json.num 5), ("line", Json.null)]).line = none ∧
      (decodeCommentFields [("id", Json.num 5), ("line", Json.null)]).id = 5 :=
  ⟨pullRequest_roundtrip,
    decodeList_encodeList encodeCommit decodeCommit commit_roundtrip,
    decodeList_encodeList encodeComment decodeComment comment_roundtrip,
    decodeList_encodeList encodeReview decodeReview review_roundtrip,
    metadata_roundtrip, rfl, rfl⟩

end PRAnalyzer
